import Mathlib

/-!
Verification of the segmented-batch translation pipeline
(`translator.py`, `translator_doubao.py`, `retranslate_batch.py`,
`chapter_translation_agent_cn.py`).

Python strings are modelled as `List Char` (`Str`).  Python's
whitespace-sensitive `strip` / `rstrip` / `lstrip` are embedded with the
ASCII whitespace set that the pipeline's inputs use.  The ad hoc regex
tag scraping (`TAG_PAT.findall` and the `<c(\d+)>` index scan) is
abstracted to its parsed result: an oracle response enters the validator
as an ordered list of `(index, content)` pairs, the contents list being
exactly what `TAG_PAT.findall` yields and the index list what the
completeness check scans.  Floating point drift comparisons are modelled
with exact rationals.  Everything else is translated directly from the
source.
-/

/-- Python strings as character lists. -/
abbrev Str := List Char

/-- ASCII whitespace, the character class Python's `str.strip` family and
the regex class `\s` recognise on the pipeline's ASCII/CJK text. -/
def isPySpace (c : Char) : Bool :=
  c = ' ' || c = '\t' || c = '\n' || c = '\r' || c = Char.ofNat 11 || c = Char.ofNat 12

/-- Python `str.lstrip()`. -/
def pyLstrip (s : Str) : Str := s.dropWhile isPySpace

/-- Python `str.rstrip()`. -/
def pyRstrip (s : Str) : Str := (s.reverse.dropWhile isPySpace).reverse

/-- Python `str.strip()`. -/
def pyStrip (s : Str) : Str := pyRstrip (pyLstrip s)

/-- The sentence-terminal character class of `translator.py`'s
`ensure_sentence_completion`, the regex class `[.!?"\'\'\"\)\]\}]`:
period, bang, question mark, double quote, single quote, closing
parenthesis, bracket and brace. -/
def isSentenceEndChar (c : Char) : Bool :=
  c = '.' || c = '!' || c = '?' || c = '"' || c = Char.ofNat 39 ||
  c = ')' || c = ']' || c = Char.ofNat 125

/-- Search for `translator.py`'s regex `[.!?"\'\'\"\)\]\}]\s*$`: the text
ends in a sentence-terminal character followed only by whitespace. -/
def sentenceEndingSearch (s : Str) : Bool :=
  match (pyRstrip s).getLast? with
  | some c => isSentenceEndChar c
  | none => false

/-- Start index of the first match of the regex `\n\s*\n` (`re.search` in
`ensure_sentence_completion`): the first newline that is followed, after
only whitespace, by another newline. -/
def findParagraphEnd : Str → Option Nat
  | [] => none
  | c :: rest =>
    if c = '\n' && (rest.takeWhile isPySpace).contains '\n' then some 0
    else (findParagraphEnd rest).map (· + 1)

/-- Index of the first sentence-terminal character (the second `re.search`
of `ensure_sentence_completion`). -/
def findSentenceEnd : Str → Option Nat
  | [] => none
  | c :: rest =>
    if isSentenceEndChar c then some 0
    else (findSentenceEnd rest).map (· + 1)

/-- `translator.py` `ensure_sentence_completion` (lines 267-322): if the
current batch text does not end a sentence, borrow text from the next
batch up to the first paragraph boundary, else up to the first
sentence-terminal character, else at most 100 characters.  Python's
reassignments `text = text.rstrip()` and `next_text = next_batch_text.strip()`
are inlined. -/
def ensure_sentence_completion (text next_batch_text : Str) : Str :=
  if (pyStrip text).isEmpty then text
  else if (pyStrip next_batch_text).isEmpty then pyRstrip text
  else if sentenceEndingSearch (pyRstrip text) then pyRstrip text
  else
    match findParagraphEnd (pyStrip next_batch_text) with
    | some end_pos => pyRstrip text ++ pyRstrip ((pyStrip next_batch_text).take end_pos)
    | none =>
      match findSentenceEnd (pyStrip next_batch_text) with
      | some idx => pyRstrip text ++ (pyStrip next_batch_text).take (idx + 1)
      | none => pyRstrip text ++ (pyStrip next_batch_text).take
          (min 100 (pyStrip next_batch_text).length)

/-- The `sentence_endings` list of `translator_doubao.py`'s
`ensure_sentence_completion_optimized`. -/
def sentenceEndingsOpt : List Str :=
  [['.'], ['!'], ['?'], ['。'], ['！'], ['？'], ['\n', '\n']]

/-- Python `s.find(pat)` as an option: index of the first occurrence of
`pat` in `s`. -/
def pyFind (pat : Str) : Str → Option Nat
  | [] => if pat.isPrefixOf ([] : Str) then some 0 else none
  | c :: rest =>
    if pat.isPrefixOf (c :: rest) then some 0
    else (pyFind pat rest).map (· + 1)

/-- The best-ending selection loop of `ensure_sentence_completion_optimized`:
the earliest occurrence among the candidate endings, earlier list entries
winning ties. -/
def bestEnding (search_text : Str) : Option (Nat × Str) :=
  sentenceEndingsOpt.foldl
    (fun best ending =>
      match pyFind ending search_text with
      | none => best
      | some pos =>
        match best with
        | none => some (pos, ending)
        | some (bp, be) => if pos < bp then some (pos, ending) else some (bp, be))
    none

/-- `translator_doubao.py` `ensure_sentence_completion_optimized`
(lines 423-460): searches only the first `max_supplement` characters of
the next-batch preview (the call site uses the Python default 50) and
appends either up to the first sentence ending found there or a lone
period. -/
def ensure_sentence_completion_optimized
    (text next_batch_preview : Str) (max_supplement : Nat) : Str :=
  if text.isEmpty || (pyStrip text).isEmpty then text
  else if sentenceEndingsOpt.any (fun e => e.isSuffixOf (pyRstrip text)) then text
  else if next_batch_preview.isEmpty then text ++ ['.']
  else
    match bestEnding (next_batch_preview.take max_supplement) with
    | some (best_pos, best_ending) =>
      text ++ (next_batch_preview.take max_supplement).take (best_pos + best_ending.length)
    | none => text ++ ['.']

/-- Decimal digit to its character, used to embed Python's `str(n)` /
`format` of nonnegative integers. -/
def digitChar : Nat → Char
  | 0 => '0' | 1 => '1' | 2 => '2' | 3 => '3' | 4 => '4'
  | 5 => '5' | 6 => '6' | 7 => '7' | 8 => '8' | 9 => '9'
  | _ => '*'

/-- Little-endian base-10 digits with explicit fuel, so that the kernel
can evaluate it; with fuel at least `n` it agrees with `Nat.digits 10`. -/
def natDigitsF : Nat → Nat → List Nat
  | 0, _ => []
  | fuel + 1, n => if n = 0 then [] else n % 10 :: natDigitsF fuel (n / 10)

/-- Little-endian base-10 digits of a natural number. -/
def natDigits (n : Nat) : List Nat := natDigitsF n n

/-- Python `str(n)` for a natural number: decimal digits, most significant
first, `"0"` for zero. -/
def natRepr (n : Nat) : Str :=
  if n = 0 then ['0'] else ((natDigits n).map digitChar).reverse

/-- Python `f"{n:03d}"`: the decimal representation left-padded with
zeros to width 3. -/
def padZero3 (n : Nat) : Str :=
  List.replicate (3 - (natRepr n).length) '0' ++ natRepr n

/-- The missing-segment identifier `f"c{idx:03d}"` used by `strip_tags`
and the completeness check of `translator.py`. -/
def missId (n : Nat) : Str := 'c' :: padZero3 n

/-- Decimal decoder used to prove that `f"{n:03d}"` identifiers are
injective: folds characters as base-10 digits. -/
def decodeDigits : Nat → Str → Nat
  | acc, [] => acc
  | acc, c :: rest => decodeDigits (acc * 10 + (c.toNat - 48)) rest

/-- Start of a match of `\n\s*\n` detected at the head of the remainder:
a newline whose following whitespace run holds another newline. -/
def blankRunAt (c : Char) (rest : Str) : Bool :=
  c = '\n' && (rest.takeWhile isPySpace).contains '\n'

/-- Fuel-driven worker for `splitBlankRuns`: each step consumes at least
one character, so fuel equal to the string length makes the fuel-exhausted
branch unreachable while keeping the recursion structural (and hence
evaluable by the kernel). -/
def splitBlankRunsF : Nat → Str → List Str
  | _, [] => [[]]
  | 0, s => [s]
  | fuel + 1, c :: rest =>
    if blankRunAt c rest then
      let run := rest.takeWhile isPySpace
      let k := run.length - 1 - (run.reverse.takeWhile (fun d => !(d = '\n'))).length
      [] :: splitBlankRunsF fuel (rest.drop (k + 1))
    else
      match splitBlankRunsF fuel rest with
      | [] => [[c]]
      | p :: ps => (c :: p) :: ps

/-- Python `re.split(r"\n\s*\n", s)` of `wrap_batch_with_tags`: split on
blank-line runs; each match consumes from its first newline through the
last newline of the whitespace run that follows it. -/
def splitBlankRuns (s : Str) : List Str := splitBlankRunsF s.length s

/-- The segment list of `wrap_batch_with_tags` (`translator.py`
lines 324-333): split the raw batch text on blank-line runs, strip each
piece, keep the non-empty ones. -/
def segmentBatch (raw_text : Str) : List Str :=
  ((splitBlankRuns raw_text).map pyStrip).filter (fun seg => !seg.isEmpty)

/-- One `<cN>seg</cN>` tagged unit. -/
def tagUnit (idx : Nat) (seg : Str) : Str :=
  '<' :: 'c' :: natRepr idx ++ '>' :: seg ++ '<' :: '/' :: 'c' :: natRepr idx ++ ['>']

/-- `translator.py` `wrap_batch_with_tags`: tag the segments with 1-based
contiguous indices and join them with blank lines. -/
def wrap_batch_with_tags (raw_text : Str) : Str :=
  let segments := segmentBatch raw_text
  List.intercalate ['\n', '\n']
    (((List.range' 1 segments.length).zip segments).map (fun p => tagUnit p.1 p.2))

/-- The explicit missing-segment placeholder `"{{MISSING}}"`. -/
def missingMarker : Str := "\x7b\x7bMISSING\x7d\x7d".data

/-- The canonical paragraph separator `"\n\n"` used to join cleaned
segments. -/
def parSep : Str := ['\n', '\n']

/-- The parse-failure marker recorded in `MISSING_DICT` when the cleaned
body is empty. -/
def parseFailMark : Str := "解析失败".data

/-- Classification of one extracted paragraph by the branches of
`strip_tags`: explicit placeholder, suppressed (empty or header/footer),
or rendered prose. -/
inductive SegClass
  | rendered
  | missing
  | suppressed
deriving DecidableEq, Repr

/-- The branch taken by `strip_tags` (`translator.py` lines 335-360) for
one paragraph; the page-number / URL / copyright regexes of
`_is_header_footer_content` enter as the parameter `isHF`. -/
def classifyPara (isHF : Str → Bool) (p : Str) : SegClass :=
  let content := pyStrip p
  if content = missingMarker then SegClass.missing
  else if content.isEmpty then SegClass.suppressed
  else if isHF content then SegClass.suppressed
  else SegClass.rendered

/-- The loop body of `strip_tags`, carrying the 1-based position `idx` of
`enumerate(paragraphs, start=1)`; returns `(clean_paras, miss_list)`. -/
def stripTagsAux (isHF : Str → Bool) (keep_missing : Bool) : Nat → List Str → List Str × List Str
  | _, [] => ([], [])
  | idx, p :: rest =>
    let r := stripTagsAux isHF keep_missing (idx + 1) rest
    let content := pyStrip p
    if content = missingMarker then
      ((if keep_missing then missingMarker :: r.1 else r.1), missId idx :: r.2)
    else if content.isEmpty then r
    else if isHF content then r
    else (content :: r.1, r.2)

/-- `translator.py` `strip_tags`: classify the paragraphs extracted by
`TAG_PAT.findall`, filter blanks, and join the kept ones with the
canonical separator; also return the positional missing-id list.  The
removed-glossary middle component (constantly `""`) is elided. -/
def strip_tags (isHF : Str → Bool) (keep_missing : Bool) (paragraphs : List Str) : Str × List Str :=
  (List.intercalate parSep
    ((stripTagsAux isHF keep_missing 1 paragraphs).1.filter
      (fun para => !(pyStrip para).isEmpty)),
   (stripTagsAux isHF keep_missing 1 paragraphs).2)

/-- Fuel-driven worker for `splitOnSep`; fuel at least the string length
makes the exhaustion branch unreachable. -/
def splitOnSepF (sep : Str) : Nat → Str → List Str
  | _, [] => [[]]
  | 0, s => [s]
  | fuel + 1, c :: rest =>
    if !sep.isEmpty && sep.isPrefixOf (c :: rest) then
      [] :: splitOnSepF sep fuel ((c :: rest).drop sep.length)
    else
      match splitOnSepF sep fuel rest with
      | [] => [[c]]
      | p :: ps => (c :: p) :: ps

/-- Python `s.split(sep)` for a non-empty separator: split on
non-overlapping occurrences, left to right. -/
def splitOnSep (sep s : Str) : List Str := splitOnSepF sep s.length s

/-- The `translated_segments` count of the main loop (`translator.py`
line 869): the number of non-blank pieces of the cleaned body split on
`"\n\n"`. -/
def translatedSegments (cn_body : Str) : Nat :=
  ((splitOnSep parSep cn_body).filter (fun p => !(pyStrip p).isEmpty)).length

/-- The `missing_tags` reconciliation source (`translator.py` lines
872-874): input indices `1..n` absent from the oracle output's tag list,
in ascending order (`sorted(input_tags - output_tags)`). -/
def droppedTags (n : Nat) (out : List (Nat × Str)) : List Nat :=
  (List.range' 1 n).filter (fun i => !((out.map Prod.fst).contains i))

/-- The reclassification loop (`translator.py` lines 883-885): append
`f"c{tag:03d}"` for each dropped tag not already in the miss list. -/
def reconcile (miss : List Str) (dropped : List Nat) : List Str :=
  dropped.foldl (fun m t => if m.contains (missId t) then m else m ++ [missId t]) miss

/-- Result of the validation section of the main loop: cleaned body, the
final `MISSING_DICT` entry, the parse-failure flag, and whether a
`WARNING_DICT` entry was recorded. -/
structure ValidationR where
  cnBody : Str
  miss : List Str
  failed : Bool
  warned : Bool
deriving DecidableEq, Repr

/-- The result-parsing section of the main loop (`translator.py` lines
857-896): strip tags (with `keep_missing=True`), fail hard on an empty
cleaned body, otherwise reconcile dropped tags into the miss list and
record a warning on dropped tags or on paragraph-count drift beyond the
0.2 threshold (`abs(o - t) > o * 0.2`, scaled to the exact integer test
`5 * |o - t| > o`). -/
def validateBatch (isHF : Str → Bool) (n : Nat) (out : List (Nat × Str)) : ValidationR :=
  if (pyStrip (strip_tags isHF true (out.map Prod.snd)).1).isEmpty then
    ⟨(strip_tags isHF true (out.map Prod.snd)).1, [parseFailMark], true, false⟩
  else
    ⟨(strip_tags isHF true (out.map Prod.snd)).1,
      reconcile (strip_tags isHF true (out.map Prod.snd)).2 (droppedTags n out), false,
      !(droppedTags n out).isEmpty
        || decide (5 * Nat.dist n
            (translatedSegments (strip_tags isHF true (out.map Prod.snd)).1) > n)⟩

/-- Number of paragraphs `strip_tags` renders into the cleaned prose. -/
def renderedCount (isHF : Str → Bool) (ps : List Str) : Nat :=
  ps.countP (fun p => decide (classifyPara isHF p = SegClass.rendered))

/-- Number of paragraphs `strip_tags` suppresses (empty or
header/footer). -/
def suppressedCount (isHF : Str → Bool) (ps : List Str) : Nat :=
  ps.countP (fun p => decide (classifyPara isHF p = SegClass.suppressed))

/-- Positions (1-based) of the explicit `{{MISSING}}` placeholders, the
indices `strip_tags` formats into its miss list. -/
def missingPositions (isHF : Str → Bool) : Nat → List Str → List Nat
  | _, [] => []
  | idx, p :: rest =>
    if classifyPara isHF p = SegClass.missing then idx :: missingPositions isHF (idx + 1) rest
    else missingPositions isHF (idx + 1) rest

/-- The stripped contents of the paragraphs classified `rendered`, in
input order. -/
def renderedContents (isHF : Str → Bool) (ps : List Str) : List Str :=
  ps.filterMap (fun p =>
    if classifyPara isHF p = SegClass.rendered then some (pyStrip p) else none)

/-- The paragraphs kept in the prose when `keep_missing` is true:
rendered contents plus a literal `{{MISSING}}` placeholder per explicit
missing paragraph, in input order. -/
def keptContents (isHF : Str → Bool) (ps : List Str) : List Str :=
  ps.filterMap (fun p =>
    match classifyPara isHF p with
    | SegClass.rendered => some (pyStrip p)
    | SegClass.missing => some missingMarker
    | SegClass.suppressed => none)

/-- Modelled from the spec: the cleaned text the specification describes,
namely the rendered segments only, joined by the canonical paragraph
separator in original order, missing and suppressed excluded. -/
def specCleanedText (isHF : Str → Bool) (ps : List Str) : Str :=
  List.intercalate parSep (renderedContents isHF ps)

/-- Modelled from the spec: the drift fraction the claim states,
`|input_count - (rendered + suppressed + missing)| / input_count`. -/
def specDriftFraction (isHF : Str → Bool) (n : Nat) (out : List (Nat × Str)) : ℚ :=
  |(n : ℚ) - ((renderedCount isHF (out.map Prod.snd) : ℚ)
    + (suppressedCount isHF (out.map Prod.snd) : ℚ)
    + ((validateBatch isHF n out).miss.length : ℚ))| / (n : ℚ)

/-- The per-batch test of `find_diff_batches` (`retranslate_batch.py`
lines 149-152): with a positive original count, flag the batch when
`abs(original - translated) / original` exceeds the threshold (default
0.2); the float division is modelled with exact rationals. -/
def find_diff_check (threshold : ℚ) (original_segments translated_segments : Nat) : Bool :=
  if 0 < original_segments then
    decide ((Nat.dist original_segments translated_segments : ℚ)
      / (original_segments : ℚ) > threshold)
  else false

/-- Association-list lookup modelling Python dict access, insertion order
preserved. -/
def glossaryLookup (g : List (Str × Str)) (k : Str) : Option Str :=
  (g.find? (fun kv => kv.1 == k)).map Prod.snd

/-- Python `line.split(sep, 1)`: the part before the first occurrence of
`sep` and the part after it. -/
def splitFirstOn (sep : Char) (line : Str) : Str × Str :=
  (line.takeWhile (fun c => !(c = sep)),
   (line.dropWhile (fun c => !(c = sep))).drop 1)

/-- Separator selection of the retranslate glossary loop: split on `⇢`
when present, else on the tab. -/
def splitGlossaryLine (line : Str) : Str × Str :=
  if line.contains '⇢' then splitFirstOn '⇢' line else splitFirstOn '\t' line

/-- One iteration of the glossary-update loop of `retranslate_batch.py`
(lines 284-294): for a line holding a tab or `⇢` separator, add the
stripped `(source, target)` pair only when both parts are non-empty and
the source is not already a key. -/
def retranslateGlossaryStep (g : List (Str × Str)) (line : Str) : List (Str × Str) :=
  if line.contains '\t' || line.contains '⇢' then
    if !(pyStrip (splitGlossaryLine line).1).isEmpty
        && !(pyStrip (splitGlossaryLine line).2).isEmpty
        && (glossaryLookup g (pyStrip (splitGlossaryLine line).1)).isNone then
      g ++ [(pyStrip (splitGlossaryLine line).1, pyStrip (splitGlossaryLine line).2)]
    else g
  else g

/-- The glossary-update loop of `retranslate_batch.py` (lines 281-302)
over the new-term block lines. -/
def retranslate_batch_glossary_update
    (glossary : List (Str × Str)) (new_terms_lines : List Str) : List (Str × Str) :=
  new_terms_lines.foldl retranslateGlossaryStep glossary

/-- Python dict assignment `g[k] = v` on the association list: overwrite
in place when the key exists, else append. -/
def glossarySet (g : List (Str × Str)) (k v : Str) : List (Str × Str) :=
  if (glossaryLookup g k).isSome then
    g.map (fun kv => if kv.1 == k then (kv.1, v) else kv)
  else g ++ [(k, v)]

/-- One iteration of `chapter_translation_agent_cn.py`'s
`update_glossary_from_translation` (lines 111-123): for a non-blank
tab-separated line of the ```` ```glossary ```` block (the
block-extraction regex is abstracted to its line list), assign
`glossary[src] = tgt` whenever the current value differs — including
when `src` is already present. -/
def chapterGlossaryStep (g : List (Str × Str)) (raw : Str) : List (Str × Str) :=
  if (pyStrip raw).isEmpty then g
  else if !raw.contains '\t' then g
  else if !(glossaryLookup g (pyStrip (splitFirstOn '\t' raw).1)
      == some (pyStrip (splitFirstOn '\t' raw).2)) then
    glossarySet g (pyStrip (splitFirstOn '\t' raw).1) (pyStrip (splitFirstOn '\t' raw).2)
  else g

/-- The fold of `update_glossary_from_translation` over the block lines. -/
def update_glossary_from_translation
    (glossary : List (Str × Str)) (block_lines : List Str) : List (Str × Str) :=
  block_lines.foldl chapterGlossaryStep glossary

/-- The backoff schedule of `call_llm` (`translator.py` line 507):
`min(5 * (2 ** attempt), 30)` seconds between attempts. -/
def backoffWait (attempt : Nat) : Nat := min (5 * 2 ^ attempt) 30

/-- The retry loop of `call_llm` (`translator.py` lines 439-511).  The
oracle maps an attempt number to `some content` (an HTTP response that
parsed) or `none` (timeout, network, HTTP or parse error).  As in the
source, a response whose stripped content is empty counts as a failed
attempt, and a successful call returns `content.strip()`.  Returns the
result together with the number of attempts consumed. -/
def callLlmAux (oracle : Nat → Option Str) (attempt : Nat) : Nat → Except Unit Str × Nat
  | 0 => (Except.error (), 0)
  | remaining + 1 =>
    match oracle attempt with
    | some content =>
      if !(pyStrip content).isEmpty then (Except.ok (pyStrip content), 1)
      else
        ((callLlmAux oracle (attempt + 1) remaining).1,
          (callLlmAux oracle (attempt + 1) remaining).2 + 1)
    | none =>
      ((callLlmAux oracle (attempt + 1) remaining).1,
        (callLlmAux oracle (attempt + 1) remaining).2 + 1)

/-- `translator.py` `call_llm`: at most `max_retries` attempts (source
default 3), raising (`Except.error`) after exhausting them. -/
def call_llm (oracle : Nat → Option Str) (max_retries : Nat) : Except Unit Str × Nat :=
  callLlmAux oracle 0 max_retries

/-- Inputs of one iteration of the batch loop: the existing translated
artifact (if any), the raw batch text, and the oracle's behaviour for
this batch. -/
structure BatchEnv where
  cache : Option Str
  raw : Str
  oracle : Nat → Option Str

/-- Observable outcome of one iteration of the batch loop: the content
written/collected for the batch (if any), how many oracle attempts were
made, and whether a failure marker or a warning was recorded. -/
structure BatchOutcomeR where
  output : Option Str
  oracleCalls : Nat
  failed : Bool
  warned : Bool
deriving DecidableEq, Repr

/-- The error placeholder written when translation fails
(`translator.py` line 848); the exception text is elided. -/
def errorPlaceholder (raw_eng : Str) : Str :=
  "**翻译失败**\n\n原文:\n".data ++ raw_eng.take 500 ++ "...\n".data

/-- The parse-failure body written when the cleaned result is empty
(`translator.py` line 901); the exception text is elided. -/
def parseFailBody (llm_out : Str) : Str :=
  "**解析失败**\n\n原始LLM输出:\n".data ++ llm_out.take 1000 ++ "...".data

/-- The conditional stitching of the main loop (`translator.py` lines
699-711): every batch but the last is completed from the following
batch's raw text. -/
def stitchNext (raw : Str) (next : Option Str) : Str :=
  match next with
  | some nx => ensure_sentence_completion raw nx
  | none => raw

/-- The non-cached part of one batch-loop iteration (`translator.py`
lines 689-928): skip an empty batch, stitch with the next batch's raw
text when there is one, segment, call the oracle with retries, validate,
and produce the batch artifact (body plus trailing newline, or an error
placeholder).  `parse` stands for the `TAG_PAT` scraping of the raw
response into `(index, content)` pairs. -/
def processBatchBody (parse : Str → List (Nat × Str)) (isHF : Str → Bool) (max_retries : Nat)
    (raw : Str) (next : Option Str) (oracle : Nat → Option Str) : BatchOutcomeR :=
  if (pyStrip raw).isEmpty then ⟨none, 0, false, false⟩
  else
    match (call_llm oracle max_retries).1 with
    | Except.error _ =>
      ⟨some (errorPlaceholder (stitchNext raw next)), (call_llm oracle max_retries).2,
        true, false⟩
    | Except.ok llm_out =>
      if (validateBatch isHF (segmentBatch (stitchNext raw next)).length
          (parse llm_out)).failed then
        ⟨some (parseFailBody llm_out ++ ['\n']), (call_llm oracle max_retries).2, true, false⟩
      else
        ⟨some ((validateBatch isHF (segmentBatch (stitchNext raw next)).length
              (parse llm_out)).cnBody ++ ['\n']),
          (call_llm oracle max_retries).2, false,
          (validateBatch isHF (segmentBatch (stitchNext raw next)).length
            (parse llm_out)).warned⟩

/-- One batch-loop iteration including the cache check (`translator.py`
lines 676-688): a non-blank cached artifact is returned unchanged with no
oracle call; a missing, blank or unreadable one falls through to full
retranslation. -/
def processBatch (parse : Str → List (Nat × Str)) (isHF : Str → Bool) (max_retries : Nat)
    (cache : Option Str) (raw : Str) (next : Option Str) (oracle : Nat → Option Str) :
    BatchOutcomeR :=
  match cache with
  | some cached_content =>
    if !(pyStrip cached_content).isEmpty then ⟨some cached_content, 0, false, false⟩
    else processBatchBody parse isHF max_retries raw next oracle
  | none => processBatchBody parse isHF max_retries raw next oracle

/-- The sequential batch loop: each batch is processed in order, the
stitcher seeing the raw text of the following batch, and every batch
yields an outcome whatever happened to the ones before it. -/
def runBatches (parse : Str → List (Nat × Str)) (isHF : Str → Bool) (max_retries : Nat) :
    List BatchEnv → List BatchOutcomeR
  | [] => []
  | e :: rest =>
    processBatch parse isHF max_retries e.cache e.raw (rest.head?.map BatchEnv.raw) e.oracle
      :: runBatches parse isHF max_retries rest

/-- The backup-and-save step of `retranslate_batch` (`retranslate_batch.py`
lines 304-311) over a name-to-content file map: when the artifact exists
it is renamed to the `.backup` sibling (never deleted), then the new
content is written under the original name. -/
def retranslate_backup_and_save (fs : Str → Option Str) (name content : Str) :
    Str → Option Str :=
  fun p =>
    if p = name then some content
    else
      match fs name with
      | some old =>
        if p = name ++ ".backup".data then some old
        else if p = name then none else fs p
      | none => fs p

/-- Concrete instantiation of the `_is_header_footer_content` parameter:
on the short alphabetic contents used in the concrete checks below, none
of the source's page-number, URL, copyright or author patterns fire, so
the predicate is false there. -/
def noHeaderFooter : Str → Bool := fun _ => false

/-- Next-batch text whose first paragraph boundary lies 1001 characters
in: 1001 letters, then a blank line, then more text. -/
def longNextBatch : Str := List.replicate 1001 'a' ++ "\n\nrest".data

theorem dropWhile_idem (p : Char → Bool) (l : Str) :
    List.dropWhile p (List.dropWhile p l) = List.dropWhile p l := by
  induction l with
  | nil => rfl
  | cons a l ih =>
    by_cases h : p a
    · simp [List.dropWhile_cons, h, ih]
    · simp [List.dropWhile_cons, h]

theorem dropWhile_head_false (p : Char → Bool) (l : Str) (c : Char) (cs : Str)
    (h : List.dropWhile p l = c :: cs) : p c = false := by
  induction l with
  | nil => simp at h
  | cons a l ih =>
    by_cases ha : p a
    · rw [List.dropWhile_cons, if_pos ha] at h
      exact ih h
    · rw [List.dropWhile_cons, if_neg ha] at h
      cases h
      simpa using ha

theorem pyRstrip_prefix_self (s : Str) : pyRstrip s <+: s := by
  obtain ⟨t, ht⟩ := List.dropWhile_suffix (l := s.reverse) (p := isPySpace)
  exact ⟨t.reverse, by rw [pyRstrip, ← List.reverse_append, ht, List.reverse_reverse]⟩

theorem pyLstrip_idem (s : Str) : pyLstrip (pyLstrip s) = pyLstrip s :=
  dropWhile_idem isPySpace s

theorem pyRstrip_idem (s : Str) : pyRstrip (pyRstrip s) = pyRstrip s := by
  unfold pyRstrip
  rw [List.reverse_reverse, dropWhile_idem]

theorem pyLstrip_pyRstrip_pyLstrip (s : Str) :
    pyLstrip (pyRstrip (pyLstrip s)) = pyRstrip (pyLstrip s) := by
  rcases h : pyLstrip s with _ | ⟨c, cs⟩
  · simp [pyRstrip, pyLstrip, List.dropWhile_nil]
  · have hc : isPySpace c = false := dropWhile_head_false isPySpace s c cs h
    rcases hr : pyRstrip (c :: cs) with _ | ⟨d, ds⟩
    · simp [pyLstrip, List.dropWhile_nil]
    · have hpre : pyRstrip (c :: cs) <+: c :: cs := pyRstrip_prefix_self (c :: cs)
      rw [hr] at hpre
      obtain ⟨t, ht⟩ := hpre
      have hd : d = c := by
        have := congrArg (fun l => l.head?) ht
        simpa using this
      subst hd
      simp [pyLstrip, List.dropWhile_cons, hc]

theorem pyStrip_idem (s : Str) : pyStrip (pyStrip s) = pyStrip s := by
  unfold pyStrip
  rw [pyLstrip_pyRstrip_pyLstrip, pyRstrip_idem]

theorem pyStrip_pyStrip_isEmpty (p : Str) :
    (pyStrip (pyStrip p)).isEmpty = (pyStrip p).isEmpty := by
  rw [pyStrip_idem]

theorem natDigitsF_eq_digits : ∀ fuel n, n ≤ fuel → natDigitsF fuel n = Nat.digits 10 n := by
  intro fuel
  induction fuel with
  | zero =>
    intro n hn
    interval_cases n
    simp [natDigitsF]
  | succ fuel ih =>
    intro n hn
    by_cases h0 : n = 0
    · subst h0; simp [natDigitsF]
    · have hpos : 0 < n := Nat.pos_of_ne_zero h0
      rw [natDigitsF, if_neg h0, Nat.digits_def' (by norm_num : 1 < 10) hpos]
      have hdiv : n / 10 ≤ fuel := by
        have := Nat.div_lt_self hpos (by norm_num : 1 < 10)
        omega
      rw [ih (n / 10) hdiv]

theorem natDigits_eq_digits (n : Nat) : natDigits n = Nat.digits 10 n :=
  natDigitsF_eq_digits n n le_rfl

theorem digitChar_toNat : ∀ d, d < 10 → (digitChar d).toNat = 48 + d := by
  intro d hd
  interval_cases d <;> rfl

theorem decodeDigits_cons (acc : Nat) (c : Char) (rest : Str) :
    decodeDigits acc (c :: rest) = decodeDigits (acc * 10 + (c.toNat - 48)) rest := rfl

theorem decodeDigits_append (xs ys : Str) : ∀ acc,
    decodeDigits acc (xs ++ ys) = decodeDigits (decodeDigits acc xs) ys := by
  induction xs with
  | nil => intro acc; rfl
  | cons c cs ih =>
    intro acc
    rw [List.cons_append, decodeDigits_cons, decodeDigits_cons, ih]

theorem decodeDigits_mapped (l : List Nat) (hl : ∀ d ∈ l, d < 10) : ∀ acc,
    decodeDigits acc ((l.map digitChar).reverse) = acc * 10 ^ l.length + Nat.ofDigits 10 l := by
  induction l with
  | nil =>
    intro acc
    show acc = acc * 10 ^ 0 + Nat.ofDigits 10 []
    simp [Nat.ofDigits]
  | cons d ds ih =>
    intro acc
    have hd : d < 10 := hl d (List.mem_cons_self d ds)
    have hds : ∀ x ∈ ds, x < 10 := fun x hx => hl x (List.mem_cons_of_mem d hx)
    have hchar : (digitChar d).toNat - 48 = d := by rw [digitChar_toNat d hd]; omega
    rw [List.map_cons, List.reverse_cons, decodeDigits_append, ih hds acc,
      decodeDigits_cons, hchar]
    show (acc * 10 ^ ds.length + Nat.ofDigits 10 ds) * 10 + d
        = acc * 10 ^ (d :: ds).length + Nat.ofDigits 10 (d :: ds)
    rw [Nat.ofDigits_cons, List.length_cons]
    ring

theorem decodeDigits_zeros (z : Nat) (s : Str) :
    decodeDigits 0 (List.replicate z '0' ++ s) = decodeDigits 0 s := by
  induction z with
  | zero => rfl
  | succ z ih =>
    rw [List.replicate_succ, List.cons_append, decodeDigits_cons]
    have h0 : 0 * 10 + ('0'.toNat - 48) = 0 := by decide
    rw [h0]
    exact ih

theorem decodeDigits_natRepr (n : Nat) : decodeDigits 0 (natRepr n) = n := by
  by_cases h0 : n = 0
  · subst h0; decide
  · rw [natRepr, if_neg h0, natDigits_eq_digits]
    have hlt : ∀ d ∈ Nat.digits 10 n, d < 10 := fun d hd =>
      Nat.digits_lt_base (by norm_num) hd
    rw [decodeDigits_mapped (Nat.digits 10 n) hlt 0, Nat.ofDigits_digits]
    simp

theorem decodeDigits_padZero3 (n : Nat) : decodeDigits 0 (padZero3 n) = n := by
  rw [padZero3, decodeDigits_zeros, decodeDigits_natRepr]

theorem missId_inj {a b : Nat} (h : missId a = missId b) : a = b := by
  have hpad : padZero3 a = padZero3 b := by
    have := congrArg List.tail h
    simpa [missId] using this
  have := congrArg (decodeDigits 0) hpad
  rwa [decodeDigits_padZero3, decodeDigits_padZero3] at this

theorem missingMarker_ne_nil : missingMarker ≠ ([] : Str) := by decide

theorem nil_ne_missingMarker : ([] : Str) ≠ missingMarker := by decide

theorem stripTagsAux_snd (isHF : Str → Bool) (km : Bool) : ∀ (ps : List Str) (idx : Nat),
    (stripTagsAux isHF km idx ps).2 = (missingPositions isHF idx ps).map missId := by
  intro ps
  induction ps with
  | nil => intro idx; rfl
  | cons p rest ih =>
    intro idx
    by_cases h1 : pyStrip p = missingMarker
    · simp [stripTagsAux, missingPositions, classifyPara, h1, ih]
    · by_cases h2 : pyStrip p = []
      · simp [stripTagsAux, missingPositions, classifyPara, h1, h2, ih, nil_ne_missingMarker, missingMarker_ne_nil]
      · by_cases h3 : isHF (pyStrip p)
        · simp [stripTagsAux, missingPositions, classifyPara, h1, h2, h3, ih]
        · simp [stripTagsAux, missingPositions, classifyPara, h1, h2, h3, ih]

theorem stripTagsAux_fst_true (isHF : Str → Bool) : ∀ (ps : List Str) (idx : Nat),
    (stripTagsAux isHF true idx ps).1 = keptContents isHF ps := by
  intro ps
  induction ps with
  | nil => intro idx; rfl
  | cons p rest ih =>
    intro idx
    by_cases h1 : pyStrip p = missingMarker
    · simp [stripTagsAux, keptContents, classifyPara, h1, ih, List.filterMap_cons]
    · by_cases h2 : pyStrip p = []
      · simp [stripTagsAux, keptContents, classifyPara, h1, h2, ih, List.filterMap_cons, nil_ne_missingMarker, missingMarker_ne_nil]
      · by_cases h3 : isHF (pyStrip p)
        · simp [stripTagsAux, keptContents, classifyPara, h1, h2, h3, ih, List.filterMap_cons]
        · simp [stripTagsAux, keptContents, classifyPara, h1, h2, h3, ih, List.filterMap_cons]

theorem stripTagsAux_fst_false (isHF : Str → Bool) : ∀ (ps : List Str) (idx : Nat),
    (stripTagsAux isHF false idx ps).1 = renderedContents isHF ps := by
  intro ps
  induction ps with
  | nil => intro idx; rfl
  | cons p rest ih =>
    intro idx
    by_cases h1 : pyStrip p = missingMarker
    · simp [stripTagsAux, renderedContents, classifyPara, h1, ih, List.filterMap_cons]
    · by_cases h2 : pyStrip p = []
      · simp [stripTagsAux, renderedContents, classifyPara, h1, h2, ih, List.filterMap_cons, nil_ne_missingMarker, missingMarker_ne_nil]
      · by_cases h3 : isHF (pyStrip p)
        · simp [stripTagsAux, renderedContents, classifyPara, h1, h2, h3, ih, List.filterMap_cons]
        · simp [stripTagsAux, renderedContents, classifyPara, h1, h2, h3, ih, List.filterMap_cons]

theorem counts_partition (isHF : Str → Bool) : ∀ (ps : List Str) (idx : Nat),
    renderedCount isHF ps + suppressedCount isHF ps
      + (missingPositions isHF idx ps).length = ps.length := by
  intro ps
  induction ps with
  | nil => intro idx; rfl
  | cons p rest ih =>
    intro idx
    have h := ih (idx + 1)
    cases hc : classifyPara isHF p <;>
      simp only [renderedCount, suppressedCount, missingPositions, List.countP_cons, hc,
        List.length_cons] at h ⊢ <;>
      simp [hc] <;> omega

theorem missingPositions_mem (isHF : Str → Bool) : ∀ (ps : List Str) (idx t : Nat),
    t ∈ missingPositions isHF idx ps → idx ≤ t ∧ t < idx + ps.length := by
  intro ps
  induction ps with
  | nil => intro idx t ht; simp [missingPositions] at ht
  | cons p rest ih =>
    intro idx t ht
    by_cases hc : classifyPara isHF p = SegClass.missing
    · rw [missingPositions, if_pos hc] at ht
      rcases List.mem_cons.mp ht with h | h
      · subst h; simp
      · have := ih (idx + 1) t h
        simp only [List.length_cons]
        omega
    · rw [missingPositions, if_neg hc] at ht
      have := ih (idx + 1) t ht
      simp only [List.length_cons]
      omega

theorem contains_eq_mem_str (m : List Str) (x : Str) : m.contains x = decide (x ∈ m) := by
  rw [List.contains, List.elem_eq_mem]

theorem reconcile_cons (miss : List Str) (t : Nat) (ds : List Nat) :
    reconcile miss (t :: ds)
      = reconcile (if miss.contains (missId t) then miss else miss ++ [missId t]) ds := rfl

theorem reconcile_all_new : ∀ (dropped : List Nat) (miss : List Str),
    dropped.Nodup → (∀ t ∈ dropped, missId t ∉ miss) →
    reconcile miss dropped = miss ++ dropped.map missId := by
  intro dropped
  induction dropped with
  | nil => intro miss _ _; simp [reconcile]
  | cons t ds ih =>
    intro miss hnd hmem
    have hnotin : missId t ∉ miss := hmem t (List.mem_cons_self t ds)
    have hcont : miss.contains (missId t) = false := by
      rw [contains_eq_mem_str]
      simpa using hnotin
    rw [reconcile_cons, hcont]
    simp only [Bool.false_eq_true, if_false]
    have hnd' : ds.Nodup := (List.nodup_cons.mp hnd).2
    have htd : t ∉ ds := (List.nodup_cons.mp hnd).1
    have hmem' : ∀ u ∈ ds, missId u ∉ miss ++ [missId t] := by
      intro u hu
      rw [List.mem_append]
      rintro (h | h)
      · exact hmem u (List.mem_cons_of_mem t hu) h
      · have : missId u = missId t := by simpa using h
        exact htd (missId_inj this ▸ hu)
    rw [ih (miss ++ [missId t]) hnd' hmem']
    simp

theorem droppedTags_aligned (k extra : Nat) (contents : List Str)
    (hlen : contents.length = k) :
    droppedTags (k + extra) ((List.range' 1 k).zip contents)
      = List.range' (k + 1) extra := by
  have hfst : ((List.range' 1 k).zip contents).map Prod.fst = List.range' 1 k :=
    List.map_fst_zip _ _ (by simp [List.length_range', hlen])
  have hsplit : List.range' 1 (k + extra) = List.range' 1 k ++ List.range' (1 + k) extra := by
    have h := List.range'_append 1 k extra 1
    simp only [one_mul] at h
    rw [Nat.add_comm k extra, ← h]
  rw [droppedTags, hfst, hsplit, List.filter_append]
  have h1 : (List.range' 1 k).filter (fun i => !(List.range' 1 k).contains i) = [] := by
    rw [List.filter_eq_nil_iff]
    intro a ha
    simp [List.contains, List.elem_eq_mem, ha]
  have h2 : (List.range' (1 + k) extra).filter (fun i => !(List.range' 1 k).contains i)
      = List.range' (1 + k) extra := by
    rw [List.filter_eq_self]
    intro a ha
    have hmem : a ∈ List.range' (1 + k) extra := ha
    rw [List.mem_range'_1] at hmem
    have : a ∉ List.range' 1 k := by
      rw [List.mem_range'_1]
      omega
    simp [List.contains, List.elem_eq_mem, this]
  rw [h1, h2, List.nil_append, Nat.add_comm 1 k]

theorem strip_tags_snd (isHF : Str → Bool) (km : Bool) (ps : List Str) :
    (strip_tags isHF km ps).2 = (missingPositions isHF 1 ps).map missId :=
  stripTagsAux_snd isHF km ps 1

theorem validateBatch_not_failed (isHF : Str → Bool) (n : Nat) (out : List (Nat × Str))
    (h : (validateBatch isHF n out).failed = false) :
    (validateBatch isHF n out).miss
      = reconcile (strip_tags isHF true (out.map Prod.snd)).2 (droppedTags n out) := by
  by_cases hemp : (pyStrip (strip_tags isHF true (out.map Prod.snd)).1).isEmpty
  · exfalso
    rw [validateBatch] at h
    simp only [hemp, if_true] at h
    simp at h
  · rw [validateBatch]
    simp only [hemp, if_false, Bool.false_eq_true]

/-- C1 (corrected claim): for every batch whose oracle output carries the
tags `1..k` in order with `k` at most the input count (in particular
every compliant or tail-truncated response) and whose validation does not
fail, every input index is accounted for as exactly one of rendered,
missing or suppressed — `rendered + suppressed + |miss| = input_count` —
and the dropped indices `k+1..n` are exactly the identifiers appended to
the missing list after the positional ones. -/
theorem seg_conservation_aligned (isHF : Str → Bool) (extra : Nat) (contents : List Str)
    (hok : (validateBatch isHF (contents.length + extra)
      ((List.range' 1 contents.length).zip contents)).failed = false) :
    renderedCount isHF contents + suppressedCount isHF contents
        + (validateBatch isHF (contents.length + extra)
            ((List.range' 1 contents.length).zip contents)).miss.length
      = contents.length + extra
    ∧ (validateBatch isHF (contents.length + extra)
          ((List.range' 1 contents.length).zip contents)).miss
      = (strip_tags isHF true contents).2
          ++ (List.range' (contents.length + 1) extra).map missId := by
  have hsnd : (((List.range' 1 contents.length).zip contents).map Prod.snd) = contents :=
    List.map_snd_zip _ _ (by simp [List.length_range'])
  have hmiss := validateBatch_not_failed isHF (contents.length + extra)
    ((List.range' 1 contents.length).zip contents) hok
  rw [hsnd] at hmiss
  have hdrop := droppedTags_aligned contents.length extra contents rfl
  rw [hdrop] at hmiss
  have hms : (strip_tags isHF true contents).2
      = (missingPositions isHF 1 contents).map missId := strip_tags_snd isHF true contents
  have hnodup : (List.range' (contents.length + 1) extra).Nodup := List.nodup_range' _ _
  have hnotin : ∀ t ∈ List.range' (contents.length + 1) extra,
      missId t ∉ (strip_tags isHF true contents).2 := by
    intro t ht hmem
    rw [List.mem_range'_1] at ht
    rw [hms] at hmem
    obtain ⟨s, hs, heq⟩ := List.mem_map.mp hmem
    have hb := missingPositions_mem isHF contents 1 s hs
    have : s = t := missId_inj heq
    omega
  have hrec := reconcile_all_new (List.range' (contents.length + 1) extra)
    (strip_tags isHF true contents).2 hnodup hnotin
  rw [hrec] at hmiss
  refine ⟨?_, hmiss⟩
  rw [hmiss, List.length_append, List.length_map, List.length_range', hms, List.length_map]
  have hpart := counts_partition isHF contents 1
  omega

/-- C1 witness: a concrete aligned batch — input count 4, output tags
1..3 with one rendered, one explicit missing and one suppressed segment —
conserves all four indices. -/
theorem seg_conservation_aligned_witness :
    (validateBatch noHeaderFooter 4
        ((List.range' 1 3).zip ["a".data, missingMarker, []])).failed = false
    ∧ renderedCount noHeaderFooter ["a".data, missingMarker, []]
        + suppressedCount noHeaderFooter ["a".data, missingMarker, []]
        + (validateBatch noHeaderFooter 4
            ((List.range' 1 3).zip ["a".data, missingMarker, []])).miss.length = 4 :=
  ⟨by decide, (seg_conservation_aligned noHeaderFooter 1 ["a".data, missingMarker, []]
    (by decide)).1⟩

/-- C1 counterexample: a batch that completes validation (no parse
failure, no dropped tags) but whose oracle output carries an extra tag:
two paragraphs come back for a single input segment, so
`rendered + suppressed + missing = 2` while the input count is 1 — the
claimed conservation equality fails on the code as stated. -/
theorem seg_conservation_counterexample :
    (validateBatch noHeaderFooter 1 [(1, "a".data), (2, "b".data)]).failed = false
    ∧ renderedCount noHeaderFooter ["a".data, "b".data]
        + suppressedCount noHeaderFooter ["a".data, "b".data]
        + (validateBatch noHeaderFooter 1 [(1, "a".data), (2, "b".data)]).miss.length = 2
    ∧ (2 : Nat) ≠ 1 :=
  ⟨by decide, by decide, by decide⟩

/-- C10: both sentence-completion functions preserve the existing
content: the returned string always begins with the input text stripped
of trailing whitespace, and characters are only ever appended after it. -/
theorem stitcher_prefix_preservation (text next : Str) :
    pyRstrip text <+: ensure_sentence_completion text next
    ∧ pyRstrip text <+: ensure_sentence_completion_optimized text next 50 := by
  constructor
  · simp only [ensure_sentence_completion]
    split_ifs with h1 h2 h3
    · exact pyRstrip_prefix_self text
    · exact List.prefix_refl _
    · exact List.prefix_refl _
    · cases hp : findParagraphEnd (pyStrip next) with
      | some e => exact List.prefix_append _ _
      | none =>
        cases hs : findSentenceEnd (pyStrip next) with
        | some i => exact List.prefix_append _ _
        | none => exact List.prefix_append _ _
  · simp only [ensure_sentence_completion_optimized]
    split_ifs with h1 h2 h3
    · exact pyRstrip_prefix_self text
    · exact pyRstrip_prefix_self text
    · exact (pyRstrip_prefix_self text).trans (List.prefix_append _ _)
    · cases hb : bestEnding (next.take 50) with
      | some pe =>
        cases pe
        exact (pyRstrip_prefix_self text).trans (List.prefix_append _ _)
      | none => exact (pyRstrip_prefix_self text).trans (List.prefix_append _ _)

/-- C8 counterexample: on Scenario A's inputs, `translator.py`'s
`ensure_sentence_completion` strips the preview's leading space and
returns `"Hello thereworld."`, not the claimed `"Hello there world."`. -/
theorem scenario_a_counterexample :
    ensure_sentence_completion "Hello there".data " world. More text here.".data
      = "Hello thereworld.".data
    ∧ "Hello thereworld.".data ≠ "Hello there world.".data :=
  ⟨by decide, by decide⟩

/-- C8 (corrected claim): the optimized stitcher of
`translator_doubao.py` returns exactly `"Hello there world."` on
Scenario A's inputs. -/
theorem scenario_a_optimized :
    ensure_sentence_completion_optimized
      "Hello there".data " world. More text here.".data 50
      = "Hello there world.".data := by decide

theorem findParagraphEnd_replicate (n : Nat) :
    findParagraphEnd (List.replicate n 'a' ++ "\n\nrest".data) = some n := by
  induction n with
  | zero => decide
  | succ n ih =>
    rw [List.replicate_succ, List.cons_append]
    have hc : (decide ('a' = '\n')
        && ((List.replicate n 'a' ++ "\n\nrest".data).takeWhile isPySpace).contains '\n')
        = false := by
      rw [show (decide ('a' = '\n')) = false from by decide, Bool.false_and]
    simp only [findParagraphEnd, hc, Bool.false_eq_true, if_false, ih, Option.map_some']

theorem pyRstrip_append_rest (l : Str) :
    pyRstrip (l ++ "\n\nrest".data) = l ++ "\n\nrest".data := by
  rw [pyRstrip, List.reverse_append]
  have hrev : ("\n\nrest".data).reverse = 't' :: "ser\n\n".data := by decide
  rw [hrev, List.cons_append, List.dropWhile_cons, if_neg (by decide)]
  rw [← List.cons_append, ← hrev, ← List.reverse_append, List.reverse_reverse]

theorem pyRstrip_replicate_a (n : Nat) :
    pyRstrip (List.replicate (n + 1) 'a') = List.replicate (n + 1) 'a' := by
  rw [pyRstrip, List.reverse_replicate, List.replicate_succ, List.dropWhile_cons,
    if_neg (by decide), ← List.replicate_succ, List.reverse_replicate]

theorem pyStrip_longNextBatch : pyStrip longNextBatch = longNextBatch := by
  rw [pyStrip, longNextBatch]
  have hl : pyLstrip (List.replicate 1001 'a' ++ "\n\nrest".data)
      = List.replicate 1001 'a' ++ "\n\nrest".data := by
    rw [show (1001 : Nat) = 1000 + 1 from rfl, List.replicate_succ, List.cons_append,
      pyLstrip, List.dropWhile_cons, if_neg (by decide), ← List.cons_append,
      ← List.replicate_succ]
  rw [hl, pyRstrip_append_rest]

theorem ensure_longNextBatch :
    ensure_sentence_completion "abc".data longNextBatch
      = "abc".data ++ List.replicate 1001 'a' := by
  have h1 : (pyStrip "abc".data).isEmpty = false := by decide
  have h2 : pyStrip longNextBatch = longNextBatch := pyStrip_longNextBatch
  have h3 : (pyStrip longNextBatch).isEmpty = false := by
    rw [h2]; rfl
  have h4 : pyRstrip "abc".data = "abc".data := by decide
  have h5 : sentenceEndingSearch (pyRstrip "abc".data) = false := by decide
  have h6 : findParagraphEnd longNextBatch = some 1001 := findParagraphEnd_replicate 1001
  have h7 : List.take 1001 longNextBatch = List.replicate 1001 'a' := by
    rw [longNextBatch, List.take_left' (List.length_replicate 1001 'a')]
  have h8 : pyRstrip (List.replicate 1001 'a') = List.replicate 1001 'a' :=
    pyRstrip_replicate_a 1000
  rw [ensure_sentence_completion]
  rw [if_neg (by simp [h1]), if_neg (by simp [h3]), if_neg (by simp [h5]), h2, h6]
  show pyRstrip "abc".data ++ pyRstrip (longNextBatch.take 1001)
    = "abc".data ++ List.replicate 1001 'a'
  rw [h4, h7, h8]

/-- C4 counterexample: `translator.py`'s stitcher receives the full next
batch and, on a next batch whose first paragraph boundary lies 1001
characters in, appends 1001 characters — beyond the claimed 1000-character
preview cap. -/
theorem stitcher_bound_counterexample :
    (ensure_sentence_completion "abc".data longNextBatch).length
      = "abc".data.length + 1001
    ∧ 1000 < 1001 := by
  refine ⟨?_, by decide⟩
  rw [ensure_longNextBatch, List.length_append, List.length_replicate]

/-- C4 (corrected claim): in `translator_doubao.py` the stitcher is
bounded — it consults only the first `max_supplement = 50` characters of
the preview (so the result is unchanged if the preview is truncated to
50 characters) and never appends more than 50 characters; `translator.py`'s
stitcher, by contrast, receives the full next batch and is unbounded on
the paragraph-boundary and punctuation branches (see the
counterexample). -/
theorem stitcher_bound_optimized (text preview : Str) :
    ensure_sentence_completion_optimized text preview 50
      = ensure_sentence_completion_optimized text (preview.take 50) 50
    ∧ (ensure_sentence_completion_optimized text preview 50).length ≤ text.length + 50 := by
  constructor
  · rw [ensure_sentence_completion_optimized, ensure_sentence_completion_optimized]
    have htake : (preview.take 50).take 50 = preview.take 50 := by
      rw [List.take_take, Nat.min_self]
    have hemp : (preview.take 50).isEmpty = preview.isEmpty := by
      cases preview <;> simp
    rw [htake, hemp]
  · rw [ensure_sentence_completion_optimized]
    split_ifs with h1 h2 h3
    · exact Nat.le_add_right _ _
    · exact Nat.le_add_right _ _
    · show (text ++ ['.']).length ≤ text.length + 50
      rw [List.length_append]
      simp
    · cases hb : bestEnding (preview.take 50) with
      | none =>
        show (text ++ ['.']).length ≤ text.length + 50
        rw [List.length_append]
        simp
      | some pe =>
        obtain ⟨bp, be⟩ := pe
        show (text ++ (preview.take 50).take (bp + be.length)).length ≤ text.length + 50
        rw [List.length_append]
        have hle : ((preview.take 50).take (bp + be.length)).length ≤ 50 := by
          rw [List.length_take, List.length_take]
          omega
        omega

theorem glossaryLookup_append (g t : List (Str × Str)) (k v : Str)
    (h : glossaryLookup g k = some v) : glossaryLookup (g ++ t) k = some v := by
  unfold glossaryLookup at h ⊢
  rw [List.find?_append]
  cases hf : List.find? (fun kv => kv.1 == k) g with
  | none => rw [hf] at h; simp at h
  | some q =>
    rw [hf] at h
    exact h

theorem retranslateGlossaryStep_extends (g : List (Str × Str)) (line : Str) :
    ∃ t, retranslateGlossaryStep g line = g ++ t := by
  rw [retranslateGlossaryStep]
  split_ifs with h1 h2
  · exact ⟨[(pyStrip (splitGlossaryLine line).1, pyStrip (splitGlossaryLine line).2)], rfl⟩
  · exact ⟨[], (List.append_nil g).symm⟩
  · exact ⟨[], (List.append_nil g).symm⟩

/-- C2 (corrected claim): the glossary merge of `retranslate_batch.py` is
first-writer-wins — once a `source_term` key is present, no sequence of
its merge steps changes the key's `target_rendering`, and pairs are only
added for absent keys; the chapter agent's
`update_glossary_from_translation`, by contrast, overwrites an existing
key when the proposed target differs (see the counterexample). -/
theorem glossary_first_writer_retranslate (g : List (Str × Str)) (lines : List Str)
    (k v : Str) (h : glossaryLookup g k = some v) :
    glossaryLookup (retranslate_batch_glossary_update g lines) k = some v := by
  induction lines generalizing g with
  | nil => exact h
  | cons line rest ih =>
    obtain ⟨t, ht⟩ := retranslateGlossaryStep_extends g line
    have hstep : glossaryLookup (retranslateGlossaryStep g line) k = some v := by
      rw [ht]
      exact glossaryLookup_append g t k v h
    exact ih (retranslateGlossaryStep g line) hstep

/-- C2 witness: a glossary already holding `A ⟶ x` still maps `A` to `x`
after the retranslate merge processes lines proposing `A ⟶ z` and a new
pair `B ⟶ y`. -/
theorem glossary_first_writer_retranslate_witness :
    glossaryLookup [("A".data, "x".data)] "A".data = some "x".data
    ∧ glossaryLookup
        (retranslate_batch_glossary_update [("A".data, "x".data)]
          ["A\tz".data, "B\ty".data]) "A".data = some "x".data :=
  ⟨by decide, glossary_first_writer_retranslate [("A".data, "x".data)]
    ["A\tz".data, "B\ty".data] "A".data "x".data (by decide)⟩

/-- C2 counterexample: `update_glossary_from_translation` of the chapter
agent overwrites the existing entry `A ⟶ x` with `A ⟶ y` on the glossary
block line `"A\ty"`, so the claimed first-writer-wins invariant fails for
that merge. -/
theorem glossary_first_writer_counterexample :
    update_glossary_from_translation [("A".data, "x".data)] ["A\ty".data]
      = [("A".data, "y".data)]
    ∧ glossaryLookup
        (update_glossary_from_translation [("A".data, "x".data)] ["A\ty".data]) "A".data
      ≠ some "x".data :=
  ⟨by decide, by decide⟩

/-- C9: on an explicit re-translation of a batch whose artifact exists,
the prior artifact is renamed to the `.backup` sibling — the previously
persisted content remains available there after the new content is
written under the original name. -/
theorem backup_on_retranslation (fs : Str → Option Str) (name content old : Str)
    (h : fs name = some old) :
    retranslate_backup_and_save fs name content (name ++ ".backup".data) = some old
    ∧ retranslate_backup_and_save fs name content name = some content
    ∧ ∃ p, retranslate_backup_and_save fs name content p = some old := by
  have hne : name ++ ".backup".data ≠ name := by
    intro he
    have hlen := congrArg List.length he
    rw [List.length_append] at hlen
    simp at hlen
  have h1 : retranslate_backup_and_save fs name content (name ++ ".backup".data) = some old := by
    rw [retranslate_backup_and_save]
    rw [if_neg hne, h]
    simp
  refine ⟨h1, ?_, ⟨name ++ ".backup".data, h1⟩⟩
  rw [retranslate_backup_and_save]
  simp

/-- C9 witness: a concrete file map holding `batch_009.md` keeps the old
content under `batch_009.md.backup` after re-translation writes the new
content. -/
theorem backup_on_retranslation_witness :
    (fun p => if p = "batch_009.md".data then some "old".data else none) "batch_009.md".data
      = some "old".data
    ∧ retranslate_backup_and_save
        (fun p => if p = "batch_009.md".data then some "old".data else none)
        "batch_009.md".data "new".data ("batch_009.md".data ++ ".backup".data)
      = some "old".data :=
  ⟨by decide, (backup_on_retranslation
    (fun p => if p = "batch_009.md".data then some "old".data else none)
    "batch_009.md".data "new".data "old".data (by decide)).1⟩

theorem callLlmAux_le (oracle : Nat → Option Str) : ∀ (fuel attempt : Nat),
    (callLlmAux oracle attempt fuel).2 ≤ fuel := by
  intro fuel
  induction fuel with
  | zero => intro attempt; exact Nat.le_refl 0
  | succ fuel ih =>
    intro attempt
    cases ho : oracle attempt with
    | none =>
      have := ih (attempt + 1)
      simp only [callLlmAux, ho]
      omega
    | some content =>
      simp only [callLlmAux, ho]
      split_ifs with hc
      · simp
      · have := ih (attempt + 1)
        omega

theorem callLlmAux_error (oracle : Nat → Option Str) : ∀ (fuel attempt : Nat),
    (callLlmAux oracle attempt fuel).1 = Except.error () →
    (callLlmAux oracle attempt fuel).2 = fuel := by
  intro fuel
  induction fuel with
  | zero => intro attempt _; rfl
  | succ fuel ih =>
    intro attempt h
    cases ho : oracle attempt with
    | none =>
      simp only [callLlmAux, ho] at h ⊢
      rw [ih (attempt + 1) h]
    | some content =>
      simp only [callLlmAux, ho] at h ⊢
      by_cases hc : (!(pyStrip content).isEmpty) = true
      · rw [if_pos hc] at h
        simp at h
      · rw [if_neg hc] at h ⊢
        have h2 : (callLlmAux oracle (attempt + 1) fuel).1 = Except.error () := h
        show (callLlmAux oracle (attempt + 1) fuel).2 + 1 = fuel + 1
        rw [ih (attempt + 1) h2]

theorem call_llm_calls_pos (oracle : Nat → Option Str) (m : Nat) (hm : 1 ≤ m) :
    1 ≤ (call_llm oracle m).2 := by
  cases m with
  | zero => omega
  | succ m =>
    rw [call_llm]
    cases ho : oracle 0 with
    | none => simp [callLlmAux, ho]
    | some content =>
      simp only [callLlmAux, ho]
      split_ifs with hc
      · simp
      · simp

theorem runBatches_length (parse : Str → List (Nat × Str)) (isHF : Str → Bool) (m : Nat) :
    ∀ envs, (runBatches parse isHF m envs).length = envs.length := by
  intro envs
  induction envs with
  | nil => rfl
  | cons e rest ih => simp [runBatches, ih]

theorem runBatches_get? (parse : Str → List (Nat × Str)) (isHF : Str → Bool) (m : Nat) :
    ∀ (envs : List BatchEnv) (i : Nat),
    (runBatches parse isHF m envs).get? i
      = (envs.get? i).map (fun e =>
          processBatch parse isHF m e.cache e.raw
            ((envs.get? (i + 1)).map BatchEnv.raw) e.oracle) := by
  intro envs
  induction envs with
  | nil => intro i; simp [runBatches]
  | cons e rest ih =>
    intro i
    cases i with
    | zero => cases rest <;> simp [runBatches]
    | succ i =>
      have := ih i
      simp only [runBatches, List.get?_cons_succ]
      rw [this]

/-- C3: a cached artifact with non-blank content is reused unchanged as
the batch's output with zero oracle attempts; a blank cached artifact
behaves exactly like a missing one (full retranslation), and on a
non-blank batch with at least one permitted attempt the retranslation
path always consults the oracle. -/
theorem cache_idempotence (parse : Str → List (Nat × Str)) (isHF : Str → Bool) (m : Nat)
    (c raw : Str) (next : Option Str) (oracle : Nat → Option Str) :
    ((pyStrip c).isEmpty = false →
      processBatch parse isHF m (some c) raw next oracle = ⟨some c, 0, false, false⟩)
    ∧ ((pyStrip c).isEmpty = true →
      processBatch parse isHF m (some c) raw next oracle
        = processBatch parse isHF m none raw next oracle)
    ∧ ((pyStrip raw).isEmpty = false → 1 ≤ m →
      1 ≤ (processBatch parse isHF m none raw next oracle).oracleCalls) := by
  refine ⟨?_, ?_, ?_⟩
  · intro h
    simp [processBatch, h]
  · intro h
    simp [processBatch, h]
  · intro hraw hm
    show 1 ≤ (processBatchBody parse isHF m raw next oracle).oracleCalls
    rw [processBatchBody, if_neg (by simp [hraw])]
    split
    · exact call_llm_calls_pos oracle m hm
    · split_ifs
      · exact call_llm_calls_pos oracle m hm
      · exact call_llm_calls_pos oracle m hm

/-- C3 witness: with a cached artifact `"x"` the outcome is the cached
content with zero oracle calls; a whitespace-only artifact triggers the
same processing as no artifact, and the fresh path makes at least one
oracle attempt. -/
theorem cache_idempotence_witness :
    (pyStrip "x".data).isEmpty = false
    ∧ processBatch (fun _ => []) noHeaderFooter 3 (some "x".data) "y".data none
        (fun _ => some "z".data)
      = ⟨some "x".data, 0, false, false⟩
    ∧ processBatch (fun _ => []) noHeaderFooter 3 (some " ".data) "y".data none
        (fun _ => some "z".data)
      = processBatch (fun _ => []) noHeaderFooter 3 none "y".data none
          (fun _ => some "z".data)
    ∧ 1 ≤ (processBatch (fun _ => []) noHeaderFooter 3 none "y".data none
        (fun _ => some "z".data)).oracleCalls :=
  ⟨by decide,
   (cache_idempotence (fun _ => []) noHeaderFooter 3 "x".data "y".data none
     (fun _ => some "z".data)).1 (by decide),
   (cache_idempotence (fun _ => []) noHeaderFooter 3 " ".data "y".data none
     (fun _ => some "z".data)).2.1 (by decide),
   (cache_idempotence (fun _ => []) noHeaderFooter 3 "x".data "y".data none
     (fun _ => some "z".data)).2.2 (by decide) (by decide)⟩

/-- C5: each oracle call makes at most `max_retries` attempts (the source
default is 3), an error is raised exactly when all attempts are
exhausted, the backoff between attempts is the capped exponential
`min(5 * 2 ^ attempt, 30)`, and the sequential batch loop yields one
outcome per batch, the outcome of batch `i` depending only on its own
environment (and the following batch's raw text) — so a failed batch
never aborts the run. -/
theorem dispatcher_retry_isolation (oracle : Nat → Option Str) (m : Nat)
    (parse : Str → List (Nat × Str)) (isHF : Str → Bool) (envs : List BatchEnv)
    (i a : Nat) :
    (call_llm oracle m).2 ≤ m
    ∧ ((call_llm oracle m).1 = Except.error () → (call_llm oracle m).2 = m)
    ∧ backoffWait 0 = 5 ∧ backoffWait 1 = 10 ∧ backoffWait 2 = 20 ∧ backoffWait a ≤ 30
    ∧ (runBatches parse isHF m envs).length = envs.length
    ∧ (runBatches parse isHF m envs).get? i
        = (envs.get? i).map (fun e =>
            processBatch parse isHF m e.cache e.raw
              ((envs.get? (i + 1)).map BatchEnv.raw) e.oracle) :=
  ⟨callLlmAux_le oracle m 0,
   fun h => callLlmAux_error oracle m 0 h,
   by decide, by decide, by decide,
   Nat.min_le_right _ _,
   runBatches_length parse isHF m envs,
   runBatches_get? parse isHF m envs i⟩

/-- C5 witness: an oracle that fails every attempt exhausts exactly 3
attempts (the default) and raises; the loop still produces an outcome
list of the right length. -/
theorem dispatcher_retry_isolation_witness :
    (call_llm (fun _ => none) 3).1 = Except.error ()
    ∧ (call_llm (fun _ => none) 3).2 = 3 :=
  ⟨rfl,
   (dispatcher_retry_isolation (fun _ => none) 3 (fun _ => []) noHeaderFooter [] 0 0).2.1
     rfl⟩

theorem classify_rendered_nonempty (isHF : Str → Bool) (p : Str)
    (h : classifyPara isHF p = SegClass.rendered) : (pyStrip p).isEmpty = false := by
  simp only [classifyPara] at h
  split_ifs at h with h1 h2 h3
  simpa using h2

theorem keptContents_filter (isHF : Str → Bool) (ps : List Str) :
    (keptContents isHF ps).filter (fun para => !(pyStrip para).isEmpty)
      = keptContents isHF ps := by
  rw [List.filter_eq_self]
  intro a ha
  rw [keptContents] at ha
  obtain ⟨p, hp, heq⟩ := List.mem_filterMap.mp ha
  cases hc : classifyPara isHF p with
  | rendered =>
    rw [hc] at heq
    have ha' : a = pyStrip p := by simpa using heq.symm
    subst ha'
    rw [pyStrip_idem, classify_rendered_nonempty isHF p hc]
    rfl
  | missing =>
    rw [hc] at heq
    have ha' : a = missingMarker := by simpa using heq.symm
    subst ha'
    decide
  | suppressed =>
    rw [hc] at heq
    simp at heq

theorem renderedContents_filter (isHF : Str → Bool) (ps : List Str) :
    (renderedContents isHF ps).filter (fun para => !(pyStrip para).isEmpty)
      = renderedContents isHF ps := by
  rw [List.filter_eq_self]
  intro a ha
  rw [renderedContents] at ha
  obtain ⟨p, hp, heq⟩ := List.mem_filterMap.mp ha
  by_cases hc : classifyPara isHF p = SegClass.rendered
  · rw [if_pos hc] at heq
    have ha' : a = pyStrip p := by simpa using heq.symm
    subst ha'
    rw [pyStrip_idem, classify_rendered_nonempty isHF p hc]
    rfl
  · rw [if_neg hc] at heq
    simp at heq

theorem strip_tags_fst_true (isHF : Str → Bool) (ps : List Str) :
    (strip_tags isHF true ps).1 = List.intercalate parSep (keptContents isHF ps) := by
  show List.intercalate parSep
      ((stripTagsAux isHF true 1 ps).1.filter (fun para => !(pyStrip para).isEmpty)) = _
  rw [stripTagsAux_fst_true isHF ps 1, keptContents_filter]

theorem strip_tags_fst_false (isHF : Str → Bool) (ps : List Str) :
    (strip_tags isHF false ps).1 = List.intercalate parSep (renderedContents isHF ps) := by
  show List.intercalate parSep
      ((stripTagsAux isHF false 1 ps).1.filter (fun para => !(pyStrip para).isEmpty)) = _
  rw [stripTagsAux_fst_false isHF ps 1, renderedContents_filter]

theorem validateBatch_failed_eq (isHF : Str → Bool) (n : Nat) (out : List (Nat × Str)) :
    (validateBatch isHF n out).failed
      = (pyStrip (strip_tags isHF true (out.map Prod.snd)).1).isEmpty := by
  by_cases hemp : (pyStrip (strip_tags isHF true (out.map Prod.snd)).1).isEmpty
  · rw [validateBatch, if_pos hemp, hemp]
  · rw [validateBatch, if_neg hemp]
    simp only [Bool.not_eq_true] at hemp
    rw [hemp]

/-- C6 (corrected claim): in the pipeline's own call
(`keep_missing=True`) the cleaned text is the rendered contents *plus a
literal `{{MISSING}}` placeholder for each explicit missing paragraph*,
joined by the canonical separator in original order with suppressed
paragraphs excluded; only with `keep_missing=False` is it the rendered
segments alone.  An entirely empty cleaned result is exactly what marks
the batch failed, distinct from a non-empty partial result. -/
theorem validator_output_shape (isHF : Str → Bool) (ps : List Str) (n : Nat)
    (out : List (Nat × Str)) :
    (strip_tags isHF true ps).1 = List.intercalate parSep (keptContents isHF ps)
    ∧ (strip_tags isHF false ps).1 = List.intercalate parSep (renderedContents isHF ps)
    ∧ (validateBatch isHF n out).failed
        = (pyStrip (strip_tags isHF true (out.map Prod.snd)).1).isEmpty :=
  ⟨strip_tags_fst_true isHF ps, strip_tags_fst_false isHF ps,
   validateBatch_failed_eq isHF n out⟩

/-- C6 counterexample: with `keep_missing=True` — the pipeline's call —
the cleaned text for an explicit-missing paragraph followed by a rendered
one is `"{{MISSING}}\n\nhola"`, not the rendered-only `"hola"` the claim
describes. -/
theorem validator_output_counterexample :
    (strip_tags noHeaderFooter true [missingMarker, "hola".data]).1
      = missingMarker ++ parSep ++ "hola".data
    ∧ specCleanedText noHeaderFooter [missingMarker, "hola".data] = "hola".data
    ∧ (strip_tags noHeaderFooter true [missingMarker, "hola".data]).1
      ≠ specCleanedText noHeaderFooter [missingMarker, "hola".data] :=
  ⟨by decide, by decide, by decide⟩

theorem processBatchBody_cases (parse : Str → List (Nat × Str)) (isHF : Str → Bool)
    (m : Nat) (raw : Str) (next : Option Str) (oracle : Nat → Option Str) :
    processBatchBody parse isHF m raw next oracle = ⟨none, 0, false, false⟩
    ∨ (∃ s k, processBatchBody parse isHF m raw next oracle = ⟨some s, k, true, false⟩)
    ∨ (∃ s k w, processBatchBody parse isHF m raw next oracle = ⟨some s, k, false, w⟩) := by
  rw [processBatchBody]
  by_cases hraw : (pyStrip raw).isEmpty
  · rw [if_pos hraw]
    exact Or.inl rfl
  · rw [if_neg hraw]
    split
    · exact Or.inr (Or.inl ⟨_, _, rfl⟩)
    · split_ifs
      · exact Or.inr (Or.inl ⟨_, _, rfl⟩)
      · exact Or.inr (Or.inr ⟨_, _, _, rfl⟩)

theorem processBatch_cases (parse : Str → List (Nat × Str)) (isHF : Str → Bool)
    (m : Nat) (cache : Option Str) (raw : Str) (next : Option Str)
    (oracle : Nat → Option Str) :
    processBatch parse isHF m cache raw next oracle
      = processBatchBody parse isHF m raw next oracle
    ∨ ∃ c, processBatch parse isHF m cache raw next oracle = ⟨some c, 0, false, false⟩ := by
  cases cache with
  | none => exact Or.inl rfl
  | some c =>
    by_cases hc : (pyStrip c).isEmpty
    · refine Or.inl ?_
      show (if !(pyStrip c).isEmpty then (⟨some c, 0, false, false⟩ : BatchOutcomeR)
        else processBatchBody parse isHF m raw next oracle) = _
      rw [if_neg (by simp [hc])]
    · refine Or.inr ⟨c, ?_⟩
      show (if !(pyStrip c).isEmpty then (⟨some c, 0, false, false⟩ : BatchOutcomeR)
        else processBatchBody parse isHF m raw next oracle) = _
      rw [if_pos (by simp [hc])]

theorem processBatch_warned_persisted (parse : Str → List (Nat × Str)) (isHF : Str → Bool)
    (m : Nat) (cache : Option Str) (raw : Str) (next : Option Str)
    (oracle : Nat → Option Str)
    (h : (processBatch parse isHF m cache raw next oracle).warned = true) :
    (processBatch parse isHF m cache raw next oracle).output ≠ none
    ∧ (processBatch parse isHF m cache raw next oracle).failed = false := by
  rcases processBatch_cases parse isHF m cache raw next oracle with hpb | ⟨c, hpb⟩
  · rw [hpb] at h ⊢
    rcases processBatchBody_cases parse isHF m raw next oracle with h0 | ⟨s, k, hf⟩ | ⟨s, k, w, hs⟩
    · rw [h0] at h
      simp at h
    · rw [hf] at h
      simp at h
    · rw [hs]
      exact ⟨by simp, rfl⟩
  · rw [hpb] at h
    simp at h

theorem validateBatch_warned_eq (isHF : Str → Bool) (n : Nat) (out : List (Nat × Str))
    (h : (validateBatch isHF n out).failed = false) :
    (validateBatch isHF n out).warned
      = (!(droppedTags n out).isEmpty
        || decide (5 * Nat.dist n
            (translatedSegments (strip_tags isHF true (out.map Prod.snd)).1) > n)) := by
  by_cases hemp : (pyStrip (strip_tags isHF true (out.map Prod.snd)).1).isEmpty
  · exfalso
    rw [validateBatch] at h
    simp only [hemp, if_true] at h
    simp at h
  · rw [validateBatch]
    simp only [hemp, if_false, Bool.false_eq_true]

theorem find_diff_check_default (o t : Nat) (ho : 0 < o) :
    find_diff_check (1/5) o t = decide (5 * Nat.dist o t > o) := by
  rw [find_diff_check, if_pos ho]
  rw [decide_eq_decide]
  rw [gt_iff_lt, div_lt_div_iff₀ (by norm_num) (by positivity)]
  rw [one_mul]
  rw [show ((Nat.dist o t : ℚ) * 5) = ((5 * Nat.dist o t : Nat) : ℚ) by push_cast; ring]
  rw [Nat.cast_lt]

/-- C7 (corrected claim): the drift the code computes compares the input
segment count to the number of non-blank paragraphs of the *cleaned
body* (rendered text plus kept `{{MISSING}}` placeholders; suppressed and
dropped segments excluded), not to `rendered + suppressed + missing`;
with the default threshold 0.2 the `find_diff_batches` test is exactly
the integer check `5 * |original - translated| > original`; in the main
loop a warning is recorded on dropped tags or on that drift test, and a
warned (suspect) batch is still persisted with a written artifact, never
discarded. -/
theorem drift_policy (o t : Nat) (parse : Str → List (Nat × Str)) (isHF : Str → Bool)
    (m : Nat) (cache : Option Str) (raw : Str) (next : Option Str)
    (oracle : Nat → Option Str) (n : Nat) (out : List (Nat × Str)) :
    (0 < o → find_diff_check (1/5) o t = decide (5 * Nat.dist o t > o))
    ∧ ((processBatch parse isHF m cache raw next oracle).warned = true →
        (processBatch parse isHF m cache raw next oracle).output ≠ none
        ∧ (processBatch parse isHF m cache raw next oracle).failed = false)
    ∧ ((validateBatch isHF n out).failed = false →
        (validateBatch isHF n out).warned
          = (!(droppedTags n out).isEmpty
            || decide (5 * Nat.dist n
                (translatedSegments (strip_tags isHF true (out.map Prod.snd)).1) > n))) :=
  ⟨fun ho => find_diff_check_default o t ho,
   fun h => processBatch_warned_persisted parse isHF m cache raw next oracle h,
   fun h => validateBatch_warned_eq isHF n out h⟩

/-- C7 witness: the default-threshold diff test agrees with the integer
check at `original = 4, translated = 3`; a concrete batch whose oracle
response echoes four tags (one of them suppressed) is marked suspect yet
still yields a written artifact and is not failed; the warned flag of a
validated batch matches the dropped-or-drift formula. -/
theorem drift_policy_witness :
    (0 : Nat) < 4
    ∧ find_diff_check (1/5) 4 3 = decide (5 * Nat.dist 4 3 > 4)
    ∧ (processBatch
        (fun _ => [(1, "a".data), (2, "b".data), (3, "c".data), (4, [])])
        noHeaderFooter 3 none "y".data none (fun _ => some "resp".data)).warned = true
    ∧ (processBatch
        (fun _ => [(1, "a".data), (2, "b".data), (3, "c".data), (4, [])])
        noHeaderFooter 3 none "y".data none (fun _ => some "resp".data)).output ≠ none
    ∧ (validateBatch noHeaderFooter 4
        [(1, "a".data), (2, "b".data), (3, "c".data), (4, [])]).failed = false
    ∧ (validateBatch noHeaderFooter 4
          [(1, "a".data), (2, "b".data), (3, "c".data), (4, [])]).warned
        = (!(droppedTags 4 [(1, "a".data), (2, "b".data), (3, "c".data), (4, [])]).isEmpty
          || decide (5 * Nat.dist 4 (translatedSegments
              (strip_tags noHeaderFooter true
                (([(1, "a".data), (2, "b".data), (3, "c".data), (4, [])]).map
                  Prod.snd)).1) > 4)) :=
  ⟨by decide,
   (drift_policy 4 3 (fun _ => []) noHeaderFooter 3 none "y".data none (fun _ => none) 0
     []).1 (by decide),
   by decide,
   ((drift_policy 4 3 (fun _ => [(1, "a".data), (2, "b".data), (3, "c".data), (4, [])])
      noHeaderFooter 3 none "y".data none (fun _ => some "resp".data) 0 []).2.1
      (by decide)).1,
   by decide,
   (drift_policy 4 3 (fun _ => []) noHeaderFooter 3 none "y".data none (fun _ => none) 4
     [(1, "a".data), (2, "b".data), (3, "c".data), (4, [])]).2.2 (by decide)⟩

/-- C7 counterexample: a validated batch whose oracle response echoes all
four tags, one of them suppressed as boilerplate, has drift 0 by the
claim's formula `|n - (rendered + suppressed + missing)| / n` — below the
threshold — yet the code marks it suspect, because the code's drift
compares `n` with the cleaned body's paragraph count (which excludes the
suppressed segment). -/
theorem drift_formula_counterexample :
    (validateBatch noHeaderFooter 4
      [(1, "a".data), (2, "b".data), (3, "c".data), (4, [])]).warned = true
    ∧ specDriftFraction noHeaderFooter 4
        [(1, "a".data), (2, "b".data), (3, "c".data), (4, [])] = 0
    ∧ ¬ ((0 : ℚ) > 1 / 5) := by
  refine ⟨by decide, ?_, by norm_num⟩
  have h1 : renderedCount noHeaderFooter
      ([(1, "a".data), (2, "b".data), (3, "c".data), (4, ([] : Str))].map Prod.snd) = 3 := by
    decide
  have h2 : suppressedCount noHeaderFooter
      ([(1, "a".data), (2, "b".data), (3, "c".data), (4, ([] : Str))].map Prod.snd) = 1 := by
    decide
  have h3 : (validateBatch noHeaderFooter 4
      [(1, "a".data), (2, "b".data), (3, "c".data), (4, ([] : Str))]).miss.length = 0 := by
    decide
  rw [specDriftFraction, h1, h2, h3]
  norm_num
